import Mathlib

/-
Verification of the prompt-recovery fine-tuning script
(`prompt_recovery_with_gemma_burst.py`).

The script loads a CSV of rows with fields `original_text`,
`rewritten_text`, `rewrite_prompt`, formats each row through a fixed
textual template, trains a causal language model on the resulting
strings with LoRA enabled, and saves a checkpoint.  A disabled
submission path fills empty predictions with a default string, and a
helper `colorize_text` wraps the template's section labels in markdown
font tags.

This file gives a shallow embedding of those pieces: strings are Lean
`String`s (a wrapper around `List Char`), rows are structures, the
dataframe is a `List` of rows, and the executed part of the script is a
state-passing pipeline.  All definitions are translated directly from
the Python source.
-/

set_option maxRecDepth 400000

/-! ## Basic string predicates -/

/-- The string `t` occurs verbatim as a substring of `s`. -/
def strContains (s t : String) : Prop :=
  ∃ a b : String, s = a ++ t ++ b

/-- The string `s` ends with `t`, with nothing after it. -/
def strEndsWith (s t : String) : Prop :=
  ∃ a : String, s = a ++ t

theorem str_ext {s t : String} (h : s.data = t.data) : s = t := by
  cases s; cases t; exact congrArg String.mk h

theorem str_mk_append_mk (a b : List Char) (t : String) :
    String.mk a ++ t ++ String.mk b = String.mk (a ++ t.data ++ b) := rfl

theorem strContains_iff_data (s t : String) :
    strContains s t ↔ t.data <:+: s.data := by
  constructor
  · rintro ⟨a, b, rfl⟩
    exact ⟨a.data, b.data, by simp [String.data_append]⟩
  · rintro ⟨a, b, h⟩
    refine ⟨String.mk a, String.mk b, ?_⟩
    rw [str_mk_append_mk]
    exact str_ext h.symm

theorem strEndsWith_iff_suffix (s t : String) :
    strEndsWith s t ↔ t.data <:+ s.data := by
  constructor
  · rintro ⟨a, rfl⟩
    exact ⟨a.data, by simp [String.data_append]⟩
  · rintro ⟨a, h⟩
    refine ⟨String.mk a, ?_⟩
    have hmk : String.mk a ++ t = String.mk (a ++ t.data) := rfl
    rw [hmk]
    exact str_ext h.symm

/-! ## The prompt template (source line 62)

The Python source keeps the template as a single literal with three
`str.format` placeholders.  We split it into the three fixed pieces
around the placeholders; `template_def` below checks by kernel
computation that the pieces reassemble to the exact source literal. -/

def template_pre : String := "Instruction:\nBelow, the `Original Text` passage has been rewritten/transformed/improved into `Rewritten Text` by the `Gemma 7b-it` LLM with a certain prompt/instruction. Your task is to carefully analyze the differences between the `Original Text` and `Rewritten Text`, and try to infer the specific prompt or instruction that was likely given to the LLM to rewrite/transform/improve the text in this way.\n\nOriginal Text:\n"

def template_mid : String := "\n\nRewriten Text:\n"

def template_post : String := "\n\nResponse:\n"

def template : String :=
  template_pre ++ "{original_text}" ++ template_mid ++ "{rewritten_text}" ++ template_post ++ "{rewrite_prompt}"

theorem template_def : template = "Instruction:\nBelow, the `Original Text` passage has been rewritten/transformed/improved into `Rewritten Text` by the `Gemma 7b-it` LLM with a certain prompt/instruction. Your task is to carefully analyze the differences between the `Original Text` and `Rewritten Text`, and try to infer the specific prompt or instruction that was likely given to the LLM to rewrite/transform/improve the text in this way.\n\nOriginal Text:\n{original_text}\n\nRewriten Text:\n{rewritten_text}\n\nResponse:\n{rewrite_prompt}" := rfl

/-- `template.format(original_text=..., rewritten_text=..., rewrite_prompt=...)`:
substitute the three fields into the template's placeholders. -/
def formatRow (original_text rewritten_text rewrite_prompt : String) : String :=
  template_pre ++ original_text ++ template_mid ++ rewritten_text ++ template_post ++ rewrite_prompt

/-- One row of the loaded CSV (columns used by the script). -/
structure Row where
  original_text : String
  rewritten_text : String
  rewrite_prompt : String

/-- The lambda of source lines 66-68: a row's formatted prompt. -/
def rowPrompt (row : Row) : String :=
  formatRow row.original_text row.rewritten_text row.rewrite_prompt

/-! ## Claims C1-C4: the formatter -/

theorem template_pre_split : template_pre =
    "Instruction" ++ ":\nBelow, the `" ++ "Original Text" ++
    "` passage has been rewritten/transformed/improved into `" ++ "Rewritten Text" ++
    "` by the `Gemma 7b-it` LLM with a certain prompt/instruction. Your task is to carefully analyze the differences between the `Original Text` and `Rewritten Text`, and try to infer the specific prompt or instruction that was likely given to the LLM to rewrite/transform/improve the text in this way.\n\n" ++
    "Original Text" ++ ":\n" := rfl

theorem template_post_split : template_post = "\n\n" ++ "Response" ++ ":\n" := rfl

theorem template_pre_data_split : template_pre.data =
    ("Instruction" : String).data ++ ((":\nBelow, the `" : String).data ++
    (("Original Text" : String).data ++
    ((("` passage has been rewritten/transformed/improved into `" : String)).data ++
    (("Rewritten Text" : String).data ++
    (("` by the `Gemma 7b-it` LLM with a certain prompt/instruction. Your task is to carefully analyze the differences between the `Original Text` and `Rewritten Text`, and try to infer the specific prompt or instruction that was likely given to the LLM to rewrite/transform/improve the text in this way.\n\n" : String).data ++
    (("Original Text" : String).data ++ ((":\n" : String)).data)))))) := rfl

theorem template_post_data_split : template_post.data =
    ("\n\n" : String).data ++ (("Response" : String).data ++ ((":\n" : String)).data) := rfl

theorem empty_str_data : ("" : String).data = [] := rfl

/-- Claim C1: for every row of string fields, the formatter output contains
the three field values verbatim as substrings, and contains the words
`Instruction`, `Original Text`, `Rewritten Text`, `Response` in that
fixed order. -/
theorem claim_C1_formatter_fields_and_labels
    (original_text rewritten_text rewrite_prompt : String) :
    strContains (formatRow original_text rewritten_text rewrite_prompt) original_text ∧
    strContains (formatRow original_text rewritten_text rewrite_prompt) rewritten_text ∧
    strContains (formatRow original_text rewritten_text rewrite_prompt) rewrite_prompt ∧
    ∃ x₁ x₂ x₃ x₄ x₅ : String,
      formatRow original_text rewritten_text rewrite_prompt =
        x₁ ++ "Instruction" ++ x₂ ++ "Original Text" ++ x₃ ++ "Rewritten Text" ++
          x₄ ++ "Response" ++ x₅ := by
  refine ⟨⟨template_pre, template_mid ++ rewritten_text ++ template_post ++ rewrite_prompt, ?_⟩,
    ⟨template_pre ++ original_text ++ template_mid, template_post ++ rewrite_prompt, ?_⟩,
    ⟨template_pre ++ original_text ++ template_mid ++ rewritten_text ++ template_post, "", ?_⟩,
    "", ":\nBelow, the `",
    "` passage has been rewritten/transformed/improved into `",
    "` by the `Gemma 7b-it` LLM with a certain prompt/instruction. Your task is to carefully analyze the differences between the `Original Text` and `Rewritten Text`, and try to infer the specific prompt or instruction that was likely given to the LLM to rewrite/transform/improve the text in this way.\n\n" ++
      "Original Text" ++ ":\n" ++ original_text ++ template_mid ++ rewritten_text ++ "\n\n",
    ":\n" ++ rewrite_prompt, ?_⟩
  · simp [formatRow, String.append_assoc]
  · simp [formatRow, String.append_assoc]
  · simp [formatRow, String.append_assoc, String.append_empty]
  · apply str_ext
    simp only [formatRow, String.data_append, template_pre_data_split,
      template_post_data_split, empty_str_data, List.append_assoc, List.nil_append]

/-- Claim C2: on the concrete row `("cat", "feline", "make it formal")`,
the formatter output contains `"Original Text:\ncat"` and
`"Rewriten Text:\nfeline"`, and ends with `"Response:\nmake it formal"`. -/
theorem claim_C2_formatter_example :
    strContains (formatRow "cat" "feline" "make it formal") "Original Text:\ncat" ∧
    strContains (formatRow "cat" "feline" "make it formal") "Rewriten Text:\nfeline" ∧
    strEndsWith (formatRow "cat" "feline" "make it formal") "Response:\nmake it formal" := by
  refine ⟨(strContains_iff_data _ _).mpr ?_, (strContains_iff_data _ _).mpr ?_,
    (strEndsWith_iff_suffix _ _).mpr ?_⟩
  · decide
  · decide
  · decide

/-- Claim C3: with an empty `rewrite_prompt`, the formatter output still
contains the `Response` label but ends exactly with `"Response:\n"`,
with nothing after it. -/
theorem claim_C3_empty_prompt_ends_with_response
    (original_text rewritten_text : String) :
    strEndsWith (formatRow original_text rewritten_text "") "Response:\n" := by
  refine ⟨template_pre ++ original_text ++ template_mid ++ rewritten_text ++ "\n\n", ?_⟩
  rw [formatRow, template_post_split]
  simp [String.append_assoc, String.append_empty]

/-- Claim C4: the formatter is a pure function of the three fields: any
two rows with identical field values format to identical strings,
regardless of anything else. -/
theorem claim_C4_formatter_pure (r₁ r₂ : Row)
    (h₁ : r₁.original_text = r₂.original_text)
    (h₂ : r₁.rewritten_text = r₂.rewritten_text)
    (h₃ : r₁.rewrite_prompt = r₂.rewrite_prompt) :
    rowPrompt r₁ = rowPrompt r₂ := by
  unfold rowPrompt
  rw [h₁, h₂, h₃]

/-- Witness for C4 at a concrete pair of rows. -/
theorem claim_C4_witness :
    rowPrompt ⟨"a", "b", "c"⟩ = rowPrompt ⟨"a", "b", "c"⟩ :=
  claim_C4_formatter_pure ⟨"a", "b", "c"⟩ ⟨"a", "b", "c"⟩ rfl rfl rfl

/-! ## Claims C5, C9: the submission default substitution (source lines 288-289)

The dead submission path runs `fillna("")` over the predicted
`rewrite_prompt` column and then maps
`lambda x: "Improve the essay" if len(x) == 0 else x` over it. -/

/-- `sub_df['rewrite_prompt'].fillna("")`: a null prediction becomes `""`. -/
def submissionFill (pred : Option String) : String :=
  pred.getD ""

/-- The lambda of source line 289. -/
def submissionDefault (x : String) : String :=
  if x.length = 0 then "Improve the essay" else x

/-- The composed column transformation of source lines 288-289. -/
def submissionFix (pred : Option String) : String :=
  submissionDefault (submissionFill pred)

theorem length_eq_zero_iff_empty (s : String) : s.length = 0 ↔ s = "" := by
  constructor
  · intro h
    cases s with
    | mk d =>
      have hd : d = [] := List.length_eq_zero.mp h
      simp [hd]
  · intro h
    subst h
    rfl

/-- Claim C5: an empty or null prediction is replaced by exactly
`"Improve the essay"`, and this is the only substitution: every other
prediction is written unchanged. -/
theorem claim_C5_submission_default (pred : Option String) :
    (pred = none ∨ pred = some "" → submissionFix pred = "Improve the essay") ∧
    (∀ s : String, pred = some s → s ≠ "" → submissionFix pred = s) := by
  constructor
  · rintro (rfl | rfl) <;> rfl
  · rintro s rfl hs
    unfold submissionFix submissionFill submissionDefault
    rw [if_neg]
    · rfl
    · exact fun h => hs ((length_eq_zero_iff_empty s).mp h)

/-- Witness for C5 at the null prediction and at a non-empty one. -/
theorem claim_C5_witness :
    submissionFix none = "Improve the essay" ∧
    submissionFix (some "Use a formal tone") = "Use a formal tone" :=
  ⟨(claim_C5_submission_default none).1 (Or.inl rfl),
   (claim_C5_submission_default (some "Use a formal tone")).2 "Use a formal tone" rfl
     (by decide)⟩

/-- Claim C9: the substitution triggers only on strings of length exactly
zero after null-filling; every non-empty string, including one made of
whitespace or newlines only, passes through unchanged. -/
theorem claim_C9_substitution_only_on_empty (s : String) :
    (s.length = 0 → submissionFix (some s) = "Improve the essay") ∧
    (s.length ≠ 0 → submissionFix (some s) = s) := by
  constructor
  · intro h
    unfold submissionFix submissionFill submissionDefault
    simp [h]
  · intro h
    unfold submissionFix submissionFill submissionDefault
    simp [h]

/-- Witness for C9 at a whitespace-and-newline-only prediction. -/
theorem claim_C9_witness : submissionFix (some " \n ") = " \n " :=
  (claim_C9_substitution_only_on_empty " \n ").2 (by decide)

/-! ## Claim C6: the formatted data list (source lines 66-69) -/

/-- A row after `df["prompt"] = ...`: the three CSV columns plus the
derived `prompt` column. -/
structure RowP where
  original_text : String
  rewritten_text : String
  rewrite_prompt : String
  prompt : String

/-- `df["prompt"] = df.progress_apply(lambda row: template.format(...), axis=1)`:
derive the prompt column row by row. -/
def addPromptColumn (df : List Row) : List RowP :=
  df.map fun row =>
    ⟨row.original_text, row.rewritten_text, row.rewrite_prompt, rowPrompt row⟩

/-- `df.prompt.tolist()`. -/
def promptsOf (df : List RowP) : List String :=
  df.map RowP.prompt

/-- `data = df.prompt.tolist()` after the prompt column was derived. -/
def dataList (raw : List Row) : List String :=
  promptsOf (addPromptColumn raw)

/-- Claim C6: the data list has exactly one element per source row, in
source order: element `i` is the template applied to the fields of row
`i`, with no deduplication, filtering, or reordering. -/
theorem claim_C6_one_prompt_per_row (raw : List Row) :
    (dataList raw).length = raw.length ∧
    ∀ (i : Nat) (h₁ : i < (dataList raw).length) (h₂ : i < raw.length),
      (dataList raw).get ⟨i, h₁⟩ = rowPrompt (raw.get ⟨i, h₂⟩) := by
  constructor
  · simp [dataList, promptsOf, addPromptColumn]
  · intro i h₁ h₂
    simp [dataList, promptsOf, addPromptColumn]

/-- Witness for C6 on a concrete two-row dataframe. -/
theorem claim_C6_witness :
    (dataList [⟨"a", "b", "c"⟩, ⟨"d", "e", "f"⟩]).length = 2 ∧
    (dataList [⟨"a", "b", "c"⟩, ⟨"d", "e", "f"⟩]).get ⟨1, by decide⟩ =
      rowPrompt ⟨"d", "e", "f"⟩ := by
  refine ⟨(claim_C6_one_prompt_per_row [⟨"a", "b", "c"⟩, ⟨"d", "e", "f"⟩]).1, ?_⟩
  exact (claim_C6_one_prompt_per_row [⟨"a", "b", "c"⟩, ⟨"d", "e", "f"⟩]).2 1
    (by decide) (by decide)

/-! ## The executed run: configuration, model state, pipeline

The executed statements of the script (lines 39-186) are: load the CSV,
derive the prompt column, build the data list, load the model, run the
preprocessor, enable LoRA with rank 4, set the sequence length, compile,
fit, and save.  Every statement after line 68 only touches the model
object; none writes to the dataframe. -/

/-- The configuration object `CFG` (named values read once at startup). -/
structure CFG where
  seed : Nat
  input_dataset_path : String
  dataset_path : String
  input_file_name : String
  preset : String
  sequence_length : Nat
  batch_size : Nat
  epochs : Nat

/-- Index of the last occurrence of a character, if any. -/
def lastIdxOf (c : Char) : List Char → Option Nat
  | [] => none
  | x :: xs =>
    match lastIdxOf c xs with
    | some i => some (i + 1)
    | none => if x = c then some 0 else none

/-- Python's `str.rfind` convention: `-1` when the character is absent. -/
def idxOrNeg (o : Option Nat) : Int :=
  match o with
  | none => -1
  | some i => (i : Int)

/-- Model of `os.path.splitext(p)[0]` (posixpath, separator `/`, extension
separator `.`): cut at the last dot when it lies after the last slash,
unless every character of the basename before that dot is itself a dot. -/
def splitextRoot (p : String) : String :=
  let l := p.data
  let sepIndex : Int := idxOrNeg (lastIdxOf '/' l)
  let dotIndex : Int := idxOrNeg (lastIdxOf '.' l)
  if sepIndex < dotIndex then
    if ((l.take dotIndex.toNat).drop (sepIndex + 1).toNat).any (fun ch => ch != '.') then
      String.mk (l.take dotIndex.toNat)
    else p
  else p

/-- Model of `os.path.join(a, b)` for two posix paths. -/
def pathJoin (a b : String) : String :=
  if b.data.head? = some '/' then b
  else if a = "" ∨ a.data.getLast? = some '/' then a ++ b
  else a ++ "/" ++ b

/-- The abstract model object: we track only what the script sets on it. -/
structure ModelState where
  preset : String
  preprocessedData : Option (List String)
  loraRank : Option Nat
  sequenceLength : Option Nat
  compiled : Bool
  fitRuns : List (List String × Nat × Nat)

/-- `keras_nlp.models.GemmaCausalLM.from_preset(CFG.preset)`. -/
def loadModel (preset : String) : ModelState :=
  ⟨preset, none, none, none, false, []⟩

/-- The state threaded through the executed script after line 69. -/
structure RunState where
  df : List RowP
  data : List String
  model : ModelState
  savedFiles : List String

/-- `x, y, sample_weight = gemma_lm.preprocessor(data)` (line 100). -/
def preprocessData (st : RunState) : RunState :=
  { st with model := { st.model with preprocessedData := some st.data } }

/-- `gemma_lm.backbone.enable_lora(rank=4)` (line 164). -/
def enableLora (rank : Nat) (st : RunState) : RunState :=
  { st with model := { st.model with loraRank := some rank } }

/-- `gemma_lm.preprocessor.sequence_length = CFG.sequence_length` (line 173). -/
def setSequenceLength (n : Nat) (st : RunState) : RunState :=
  { st with model := { st.model with sequenceLength := some n } }

/-- `gemma_lm.compile(...)` (lines 176-180). -/
def compileModel (st : RunState) : RunState :=
  { st with model := { st.model with compiled := true } }

/-- `gemma_lm.fit(data, epochs=CFG.epochs, batch_size=CFG.batch_size)` (line 183). -/
def fitModel (epochs batch_size : Nat) (st : RunState) : RunState :=
  { st with model :=
      { st.model with fitRuns := st.model.fitRuns ++ [(st.data, epochs, batch_size)] } }

/-- `gemma_lm.save(path)` (line 186). -/
def saveModel (path : String) (st : RunState) : RunState :=
  { st with savedFiles := st.savedFiles ++ [path] }

/-- The checkpoint file name
`f'finetune_{CFG.preset}_{base_filename}_epoch{CFG.epochs}.keras'`
where `base_filename, _ = os.path.splitext(CFG.input_file_name)`. -/
def saveFileName (cfg : CFG) : String :=
  "finetune_" ++ cfg.preset ++ "_" ++ splitextRoot cfg.input_file_name ++
    "_epoch" ++ toString cfg.epochs ++ ".keras"

/-- The full checkpoint path of source line 186. -/
def savePath (cfg : CFG) : String :=
  pathJoin cfg.dataset_path (saveFileName cfg)

/-- The executed script from the CSV load up to (but not including) the
final `gemma_lm.save` call. -/
def runBeforeSave (cfg : CFG) (raw : List Row) : RunState :=
  let df := addPromptColumn raw
  let data := promptsOf df
  fitModel cfg.epochs cfg.batch_size
    (compileModel (setSequenceLength cfg.sequence_length
      (enableLora 4 (preprocessData ⟨df, data, loadModel cfg.preset, []⟩))))

/-- The whole executed script. -/
def runScript (cfg : CFG) (raw : List Row) : RunState :=
  saveModel (savePath cfg) (runBeforeSave cfg raw)

/-- Forget the derived prompt column again. -/
def dropPromptColumn (rp : RowP) : Row :=
  ⟨rp.original_text, rp.rewritten_text, rp.rewrite_prompt⟩

/-! ## Claim C7: the dataframe is never mutated after the prompt column -/

/-- Claim C7: deriving the prompt column leaves the three original columns
(values and row order) unchanged, and no executed statement after the
derivation writes to the dataframe: at the end of the run the dataframe
is still exactly the one produced by the derivation. -/
theorem claim_C7_dataframe_never_mutated (cfg : CFG) (raw : List Row) :
    (addPromptColumn raw).map dropPromptColumn = raw ∧
    (runScript cfg raw).df = addPromptColumn raw := by
  constructor
  · rw [addPromptColumn, List.map_map]
    exact List.map_id raw
  · rfl

/-! ## Claim C8: the checkpoint path -/

/-- A concrete configuration with an input file name that carries a
`.csv` extension. -/
def cfgExample : CFG :=
  ⟨42, "/kaggle/input/gemma-rewrite-nbroad/nbroad-v1.csv", "/kaggle/working",
    "data.csv", "gemma_2b_en", 512, 1, 2⟩

/-- Counterexample to claim C8 as stated: the checkpoint file name is not
built from the input filename itself but from the input filename with
its extension stripped (`os.path.splitext`): for `input_file_name =
"data.csv"` the produced name is `finetune_gemma_2b_en_data_epoch2.keras`,
which does not contain the string `"data.csv"` at all. -/
theorem claim_C8_counterexample :
    cfgExample.input_file_name = "data.csv" ∧
    saveFileName cfgExample = "finetune_gemma_2b_en_data_epoch2.keras" ∧
    ¬ strContains (saveFileName cfgExample) cfgExample.input_file_name := by
  refine ⟨rfl, by decide, fun hc => ?_⟩
  exact absurd ((strContains_iff_data _ _).mp hc) (by decide)

theorem saveFileName_head (cfg : CFG) :
    (saveFileName cfg).data.head? = some 'f' := by
  rw [saveFileName]
  simp only [String.data_append, List.append_assoc, List.head?_append]
  rw [show ("finetune_" : String).data.head? = some 'f' from rfl]
  rfl

/-- Claim C8 (amended): the checkpoint is written exactly once, by the
final statement of the run, to a path under the configured dataset
directory whose file name concatenates the preset identifier, the input
file name stripped of its extension, and the epoch count. -/
theorem claim_C8_checkpoint_amended (cfg : CFG) (raw : List Row) :
    (runScript cfg raw).savedFiles = [savePath cfg] ∧
    (runBeforeSave cfg raw).savedFiles = [] ∧
    saveFileName cfg =
      "finetune_" ++ cfg.preset ++ "_" ++ splitextRoot cfg.input_file_name ++
        "_epoch" ++ toString cfg.epochs ++ ".keras" ∧
    ∃ rest : String, savePath cfg = cfg.dataset_path ++ rest := by
  refine ⟨rfl, rfl, rfl, ?_⟩
  rw [savePath, pathJoin]
  rw [if_neg (by rw [saveFileName_head]; intro h; exact absurd (Option.some.inj h) (by decide))]
  by_cases hc : cfg.dataset_path = "" ∨ cfg.dataset_path.data.getLast? = some '/'
  · rw [if_pos hc]
    exact ⟨saveFileName cfg, rfl⟩
  · rw [if_neg hc]
    exact ⟨"/" ++ saveFileName cfg, by rw [String.append_assoc]⟩

/-! ## Claim C10: `colorize_text` (source lines 76-80)

Python's `text.replace(old, new)` scans left to right and replaces every
non-overlapping occurrence of `old`.  We model it by `replaceAll` on the
character list (for a non-empty pattern, exactly Python's behaviour),
together with a greedy splitter `splitOnG` that cuts the input at the
same occurrences, and `joinWith` to glue the pieces back. -/

def replaceAll (p r : List Char) (s : List Char) : List Char :=
  match s with
  | [] => []
  | c :: cs =>
    if p ≠ [] ∧ p.isPrefixOf (c :: cs) then
      r ++ replaceAll p r (cs.drop (p.length - 1))
    else
      c :: replaceAll p r cs
termination_by s.length
decreasing_by
  · simp only [List.length_drop, List.length_cons]
    omega
  · simp

def splitOnG (p : List Char) (s : List Char) : List (List Char) :=
  match s with
  | [] => [[]]
  | c :: cs =>
    if p ≠ [] ∧ p.isPrefixOf (c :: cs) then
      [] :: splitOnG p (cs.drop (p.length - 1))
    else
      match splitOnG p cs with
      | [] => [[c]]
      | t :: ts => (c :: t) :: ts
termination_by s.length
decreasing_by
  · simp only [List.length_drop, List.length_cons]
    omega
  · simp

def joinWith (sep : List Char) : List (List Char) → List Char
  | [] => []
  | [x] => x
  | x :: y :: rest => x ++ sep ++ joinWith sep (y :: rest)

/-- `str.replace` on Lean strings. -/
def strReplace (s pat rep : String) : String :=
  String.mk (replaceAll pat.data rep.data s.data)

/-- The `zip(["Instruction", ...], ["red", ...])` pairs of source lines 77-78. -/
def labelWords : List (String × String) :=
  [("Instruction", "red"), ("Original Text", "yellow"),
   ("Rewriten Text", "blue"), ("Response", "green")]

/-- `colorize_text` of source lines 76-80: for each word/color pair,
replace `f"{word}:"` by the markdown font wrapper. -/
def colorize_text (text : String) : String :=
  labelWords.foldl
    (fun t wc =>
      strReplace t (wc.1 ++ ":")
        ("\n\n**<font color=\x27" ++ wc.2 ++ "\x27>" ++ wc.1 ++ ":</font>**"))
    text

theorem isPrefixOf_eq_true (l₁ l₂ : List Char) :
    l₁.isPrefixOf l₂ = true ↔ l₁ <+: l₂ :=
  List.isPrefixOf_iff_prefix

theorem joinWith_cons_head (sep : List Char) (c : Char) (t : List Char)
    (ts : List (List Char)) :
    joinWith sep ((c :: t) :: ts) = c :: joinWith sep (t :: ts) := by
  cases ts <;> rfl

theorem splitOnG_ne_nil (p s : List Char) : splitOnG p s ≠ [] := by
  induction s using splitOnG.induct p with
  | case1 => simp [splitOnG]
  | case2 c cs h ih =>
    rw [splitOnG]
    rw [if_pos h]
    simp
  | case3 c cs h heq =>
    rw [splitOnG]
    rw [if_neg h]
    rw [heq]
    simp
  | case4 c cs h t ts heq ih =>
    rw [splitOnG]
    rw [if_neg h]
    rw [heq]
    simp

theorem splitOnG_head_starts (p s : List Char) (t : List Char) (ts : List (List Char))
    (heq : splitOnG p s = t :: ts) : t <+: s := by
  induction s using splitOnG.induct p generalizing t ts with
  | case1 =>
    rw [splitOnG] at heq
    cases heq
    exact List.nil_prefix
  | case2 c cs h ih =>
    rw [splitOnG, if_pos h] at heq
    cases heq
    exact List.nil_prefix
  | case3 c cs h heq0 =>
    exact absurd heq0 (splitOnG_ne_nil p cs)
  | case4 c cs h t₀ ts₀ heq0 ih =>
    rw [splitOnG, if_neg h, heq0] at heq
    cases heq
    rcases ih t₀ ts₀ heq0 with ⟨u, hu⟩
    exact ⟨u, by rw [← hu]; rfl⟩

theorem drop_pred_cons (p : List Char) (hp : p ≠ []) (c : Char) (cs : List Char) :
    cs.drop (p.length - 1) = (c :: cs).drop p.length := by
  rcases p with _ | ⟨x, xs⟩
  · exact absurd rfl hp
  · rfl

theorem prefix_drop_eq (p s : List Char) (h : p.isPrefixOf s) :
    s = p ++ s.drop p.length := by
  rcases (isPrefixOf_eq_true _ _).mp h with ⟨u, hu⟩
  rw [← hu, List.drop_left]

theorem joinWith_splitOnG (p s : List Char) :
    joinWith p (splitOnG p s) = s := by
  induction s using splitOnG.induct p with
  | case1 =>
    rw [splitOnG]
    rfl
  | case2 c cs h ih =>
    rw [splitOnG, if_pos h]
    rcases hne : splitOnG p (cs.drop (p.length - 1)) with _ | ⟨t, ts⟩
    · exact absurd hne (splitOnG_ne_nil p _)
    · rw [hne] at ih
      show joinWith p ([] :: t :: ts) = c :: cs
      rw [show joinWith p ([] :: t :: ts) = p ++ joinWith p (t :: ts) from rfl]
      rw [ih, drop_pred_cons p h.1 c cs]
      exact (prefix_drop_eq p (c :: cs) h.2).symm
  | case3 c cs h heq =>
    exact absurd heq (splitOnG_ne_nil p cs)
  | case4 c cs h t ts heq ih =>
    rw [splitOnG, if_neg h, heq]
    rw [joinWith_cons_head]
    rw [heq] at ih
    rw [ih]

theorem replaceAll_eq_joinWith (p r s : List Char) :
    replaceAll p r s = joinWith r (splitOnG p s) := by
  induction s using splitOnG.induct p with
  | case1 =>
    rw [replaceAll, splitOnG]
    rfl
  | case2 c cs h ih =>
    rw [splitOnG, if_pos h, replaceAll, if_pos h]
    rcases hne : splitOnG p (cs.drop (p.length - 1)) with _ | ⟨t, ts⟩
    · exact absurd hne (splitOnG_ne_nil p _)
    · rw [hne] at ih
      rw [show joinWith r ([] :: t :: ts) = r ++ joinWith r (t :: ts) from rfl]
      rw [← hne] at ih ⊢
      rw [ih]
  | case3 c cs h heq =>
    exact absurd heq (splitOnG_ne_nil p cs)
  | case4 c cs h t ts heq ih =>
    rw [splitOnG, if_neg h, heq, replaceAll, if_neg h]
    rw [joinWith_cons_head]
    rw [heq] at ih
    rw [ih]

theorem splitOnG_parts_free (p s : List Char) (hp : p ≠ []) :
    ∀ part ∈ splitOnG p s, ¬ p <:+: part := by
  induction s using splitOnG.induct p with
  | case1 =>
    intro part hpart
    rw [splitOnG] at hpart
    simp at hpart
    subst hpart
    rw [List.infix_nil]
    exact hp
  | case2 c cs h ih =>
    intro part hpart
    rw [splitOnG, if_pos h] at hpart
    rcases List.mem_cons.mp hpart with rfl | hmem
    · rw [List.infix_nil]; exact hp
    · exact ih part hmem
  | case3 c cs h heq =>
    exact absurd heq (splitOnG_ne_nil p cs)
  | case4 c cs h t ts heq ih =>
    intro part hpart
    rw [splitOnG, if_neg h, heq] at hpart
    have hnp : ¬ p <+: c :: cs := by
      intro hpre
      exact h ⟨hp, (isPrefixOf_eq_true _ _).mpr hpre⟩
    rcases List.mem_cons.mp hpart with rfl | hmem
    · intro hinf
      rcases List.infix_cons_iff.mp hinf with hpre | hinf'
      · have ht : t <+: cs := splitOnG_head_starts p cs t ts heq
        rcases ht with ⟨u, hu⟩
        have hct : c :: t <+: c :: cs := ⟨u, by rw [← hu]; rfl⟩
        exact hnp (hpre.trans hct)
      · exact ih t (by rw [heq]; exact List.mem_cons_self t ts) hinf'
    · exact ih part (by rw [heq]; exact List.mem_cons_of_mem t hmem)

theorem replaceAll_of_absent (p r s : List Char) (h : ¬ p <:+: s) :
    replaceAll p r s = s := by
  induction s using replaceAll.induct p r with
  | case1 => rw [replaceAll]
  | case2 c cs hc ih =>
    exact absurd (((isPrefixOf_eq_true _ _).mp hc.2).isInfix) h
  | case3 c cs hc ih =>
    rw [replaceAll, if_neg hc]
    rw [ih (fun hinf => h (List.infix_cons hinf))]

theorem strReplace_of_not_contains (s pat rep : String)
    (h : ¬ strContains s pat) : strReplace s pat rep = s := by
  have hni : ¬ pat.data <:+: s.data :=
    fun hin => h ((strContains_iff_data _ _).mpr hin)
  show String.mk (replaceAll pat.data rep.data s.data) = s
  rw [replaceAll_of_absent _ _ _ hni]

/-- Claim C10: `colorize_text` is the identity on any string containing
none of the four label substrings, and conversely each of its
replacement passes rewrites every greedy occurrence of its label
pattern, anywhere in the input and with no escaping: the input splits
at exactly those occurrences into pattern-free parts, and the pass
rejoins the same parts with the replacement instead. -/
theorem claim_C10_colorize :
    (∀ s : String,
      (∀ wc ∈ labelWords, ¬ strContains s (wc.1 ++ ":")) → colorize_text s = s) ∧
    (∀ p r s : List Char, p ≠ [] →
      joinWith p (splitOnG p s) = s ∧
      replaceAll p r s = joinWith r (splitOnG p s) ∧
      ∀ part ∈ splitOnG p s, ¬ p <:+: part) := by
  constructor
  · intro s hno
    have h1 : ¬ strContains s ("Instruction" ++ ":") :=
      hno ("Instruction", "red") (by simp [labelWords])
    have h2 : ¬ strContains s ("Original Text" ++ ":") :=
      hno ("Original Text", "yellow") (by simp [labelWords])
    have h3 : ¬ strContains s ("Rewriten Text" ++ ":") :=
      hno ("Rewriten Text", "blue") (by simp [labelWords])
    have h4 : ¬ strContains s ("Response" ++ ":") :=
      hno ("Response", "green") (by simp [labelWords])
    show strReplace
        (strReplace
          (strReplace
            (strReplace s ("Instruction" ++ ":")
              ("\n\n**<font color=\x27" ++ "red" ++ "\x27>" ++ "Instruction" ++ ":</font>**"))
            ("Original Text" ++ ":")
            ("\n\n**<font color=\x27" ++ "yellow" ++ "\x27>" ++ "Original Text" ++ ":</font>**"))
          ("Rewriten Text" ++ ":")
          ("\n\n**<font color=\x27" ++ "blue" ++ "\x27>" ++ "Rewriten Text" ++ ":</font>**"))
        ("Response" ++ ":")
        ("\n\n**<font color=\x27" ++ "green" ++ "\x27>" ++ "Response" ++ ":</font>**") = s
    rw [strReplace_of_not_contains s _ _ h1, strReplace_of_not_contains s _ _ h2,
      strReplace_of_not_contains s _ _ h3, strReplace_of_not_contains s _ _ h4]
  · intro p r s hp
    exact ⟨joinWith_splitOnG p s, replaceAll_eq_joinWith p r s, splitOnG_parts_free p s hp⟩

/-- Witness for C10: a label-free string passes through unchanged, and the
replacement spec instantiated at a concrete pattern and input. -/
theorem claim_C10_witness :
    colorize_text "just some plain words" = "just some plain words" ∧
    (joinWith "ab".data (splitOnG "ab".data "xabyab".data) = "xabyab".data ∧
     replaceAll "ab".data "Z".data "xabyab".data =
       joinWith "Z".data (splitOnG "ab".data "xabyab".data) ∧
     ∀ part ∈ splitOnG "ab".data "xabyab".data, ¬ "ab".data <:+: part) := by
  constructor
  · apply claim_C10_colorize.1
    intro wc hwc hcon
    have hin := (strContains_iff_data _ _).mp hcon
    simp only [labelWords, List.mem_cons, List.not_mem_nil, or_false] at hwc
    rcases hwc with rfl | rfl | rfl | rfl
    · exact absurd hin (by decide)
    · exact absurd hin (by decide)
    · exact absurd hin (by decide)
    · exact absurd hin (by decide)
  · exact claim_C10_colorize.2 "ab".data "Z".data "xabyab".data (by decide)
